import Mathlib

/-!
# gocat: the GitOps deploy pipeline and the Slack front end

A shallow embedding of `model_gitops.go` and `slack.go`.

Collaborators the two files call but do not define (the GitOps plugin, the
Git hosting client, the Slack client, the project and user lists, the
interactor factory, the deploy coordinator, the HTTP response writer) are
fields of an environment record.  Each such call is a state transformer on an
arbitrary world type `σ`, so a collaborator may answer differently on every
call.  Every call is also appended to a trace of `Event`s, which is what the
theorems about "is called", "is called once" and "is never called" speak of.
Logging (`log.Print*`, `fmt.Print*`) is not recorded.
-/

namespace Gocat

/-! ## Values -/

/-- A Go `error` value, identified by its `Error()` text. -/
structure GoError where
  Error : String
deriving DecidableEq, Repr

/-- A Go run-time panic. -/
structure Panic where
  msg : String
deriving DecidableEq, Repr

/-- Modelled from the spec: the type `DeployStatus` and its constant
`DeployStatusSuccess` are declared outside the two source files; the spec gives
`status ∈ {Success, Pending, Failed}`. -/
inductive DeployStatus where
  | Success
  | Pending
  | Failed
deriving DecidableEq, Repr

/-- The constant `DeployStatusSuccess`. -/
def DeployStatusSuccess : DeployStatus := DeployStatus.Success

/-- A deploy phase as `slack.go` uses it: the fields `Name` and `Kind` and the
result of the method `None()`. -/
structure DeployPhase where
  Name : String
  Kind : String
  None : Bool

/-- A deploy project as the two files use it: the fields `ID` and
`DisableBranchDeploy` and the results of the methods `GitHubRepository()`,
`DefaultBranch()` and `FindPhase(name)`. -/
structure DeployProject where
  ID : String
  DisableBranchDeploy : Bool
  GitHubRepository : String
  DefaultBranch : String
  FindPhase : String → DeployPhase

/-- A user as the two files use it: the result of the method `IsDeveloper()`. -/
structure User where
  IsDeveloper : Bool
deriving DecidableEq, Repr

/-- The struct `GitOpsPrepareOutput` (model_gitops.go:9-14). -/
structure GitOpsPrepareOutput where
  PullRequestID : String
  PullRequestNumber : Int
  Branch : String
  status : DeployStatus
deriving DecidableEq, Repr

/-- The struct `DeployOption`, with the three fields `Deploy` reads. -/
structure DeployOption where
  Branch : String
  Assigner : User
  Tag : String

/-- The interface value `DeployOutput` as `Deploy` returns it: `none` is the nil
interface, `some o` holds a `GitOpsPrepareOutput`. -/
abbrev DeployOutput := Option GitOpsPrepareOutput

/-- A Slack block.  `Section text` is
`slack.NewSectionBlock(slack.NewTextBlockObject("mrkdwn", text, false, false), nil, nil)`,
`ButtonSection text label value` is the section of `createDeployButtonSection`,
`CloseButton` is the result of `CloseButton()`, and `Other` stands for any other
block an interactor hands back. -/
inductive Block where
  | Section (text : String)
  | ButtonSection (text : String) (label : String) (value : String)
  | CloseButton
  | Other (tag : String)
deriving DecidableEq, Repr

/-- A non-nil `slack.MsgOption`; all of them here come from
`slack.MsgOptionBlocks`.  The nil option is `none : Option MsgOption`. -/
structure MsgOption where
  Blocks : List Block
deriving DecidableEq, Repr

/-- A pointer to a `deploy.Coordinator`. -/
structure Coordinator where
  addr : Nat
deriving DecidableEq, Repr

/-- An interactor handed out by the interactor factory. -/
structure Interactor where
  addr : Nat
deriving DecidableEq, Repr

/-! ## Effects -/

/-- One call to a collaborator. -/
inductive Event where
  | Prepare (pj : DeployProject) (phase : String) (branch : String) (assigner : User) (tag : String)
  | MergePullRequest (pullRequestID : String)
  | PostMessage (channel : String) (opt : Option MsgOption)
  | ProjectListReload
  | UserListReload
  | FindByAlias (projectID : String)
  | FindBySlackUserID (userID : String)
  | InteractorGet (pj : DeployProject) (phase : String)
  | BranchList (i : Interactor) (pj : DeployProject) (phase : String)
  | Request (i : Interactor) (pj : DeployProject) (phase : String) (branch : String)
      (user : String) (channel : String)
  | Parse (text : String)
  | NewCoordinator (ns : String) (name : String)
  | CoordinatorLock (c : Coordinator) (project : String) (env : String) (user : String)
      (reason : String)
  | CoordinatorUnlock (c : Coordinator) (project : String) (env : String) (user : String)
      (force : Bool)
  | WriteHeader (code : Nat)
  | HeaderSet (key : String) (value : String)
  | Write (body : String)

/-- The state a run threads: the collaborators' world and the calls made so far. -/
structure Sys (σ : Type) where
  world : σ
  trace : List Event

/-- A computation with effects on `Sys σ`. -/
def Eff (σ : Type) (α : Type) : Type := Sys σ → α × Sys σ

/-- Return without effect. -/
def Eff.pure {σ α : Type} (a : α) : Eff σ α := fun s => (a, s)

/-- Sequencing. -/
def Eff.bind {σ α β : Type} (m : Eff σ α) (f : α → Eff σ β) : Eff σ β :=
  fun s => f (m s).1 (m s).2

instance {σ : Type} : Monad (Eff σ) where
  pure := Eff.pure
  bind := Eff.bind

/-- Call a collaborator: record the event, let the collaborator act on the world. -/
def call {σ α : Type} (e : Event) (f : σ → α × σ) : Eff σ α :=
  fun s => ((f s.world).1, ⟨(f s.world).2, s.trace ++ [e]⟩)

/-! ## model_gitops.go -/

/-- The struct `ModelGitOps`: the behaviour of `github.MergePullRequest` and of
`plugin.Prepare`.  (The field `git` is not used by the file.) -/
structure ModelGitOps (σ : Type) where
  github_MergePullRequest : String → σ → Option GoError × σ
  plugin_Prepare : DeployProject → String → String → User → String →
    σ → (GitOpsPrepareOutput × Option GoError) × σ

/-- `GitOpsPrepareOutput.Status` (model_gitops.go:16-18). -/
def GitOpsPrepareOutput.Status (self : GitOpsPrepareOutput) : DeployStatus :=
  self.status

/-- `GitOpsPrepareOutput.Message` (model_gitops.go:20-22). -/
def GitOpsPrepareOutput.Message (_self : GitOpsPrepareOutput) : String :=
  "Success to deploy"

/-- `ModelGitOps.Commit` (model_gitops.go:24-27). -/
def ModelGitOps.Commit {σ : Type} (self : ModelGitOps σ) (pullRequestID : String) :
    Eff σ (Option GoError) :=
  call (Event.MergePullRequest pullRequestID) (self.github_MergePullRequest pullRequestID)

/-- `ModelGitOps.Deploy` (model_gitops.go:29-41).  The results `do` and `err` are
named: the bare `return`s give back the nil `do` and the current `err`. -/
def ModelGitOps.Deploy {σ : Type} (self : ModelGitOps σ) (pj : DeployProject) (phase : String)
    (option : DeployOption) : Eff σ (DeployOutput × Option GoError) := do
  let r ← call (Event.Prepare pj phase option.Branch option.Assigner option.Tag)
    (self.plugin_Prepare pj phase option.Branch option.Assigner option.Tag)
  match r.2 with
  | some e => pure (none, some e)
  | none =>
    if r.1.Status = DeployStatusSuccess then do
      let err ← self.Commit r.1.PullRequestID
      match err with
      | some e => pure (none, some e)
      | none => pure (some r.1, none)
    else
      pure (some r.1, none)

/-! ## slack.go: values -/

/-- The struct `slackevents.AppMentionEvent`, with the fields the listener reads. -/
structure AppMentionEvent where
  Text : String
  Channel : String
  User : String
deriving DecidableEq, Repr

/-- The struct `slackcmd.Lock`. -/
structure Lock where
  Project : String
  Env : String
  Reason : String
deriving DecidableEq, Repr

/-- The struct `slackcmd.Unlock`. -/
structure Unlock where
  Project : String
  Env : String
deriving DecidableEq, Repr

/-- A non-nil `slackcmd.Command`: a `*slackcmd.Lock`, a `*slackcmd.Unlock`, or a
value of any other dynamic type. -/
inductive Command where
  | Lock (cmd : Gocat.Lock)
  | Unlock (cmd : Gocat.Unlock)
  | Other (name : String)
deriving DecidableEq, Repr

/-- The field `Type` of a parsed Events API event. -/
inductive EventType where
  | URLVerification
  | CallbackEvent
  | Other
deriving DecidableEq, Repr

/-- The dynamic type of `InnerEvent.Data`. -/
inductive InnerEventData where
  | AppMentionEvent (ev : Gocat.AppMentionEvent)
  | Other
deriving DecidableEq, Repr

/-- The struct `slackevents.EventsAPIEvent`, with the fields `ServeHTTP` reads. -/
structure EventsAPIEvent where
  EventType : EventType
  InnerEvent : InnerEventData
deriving DecidableEq, Repr

/-- What `ServeHTTP` reads of an `*http.Request`: the outcome of reading the body
and the value of the header `X-Slack-Retry-Num`. -/
structure Request where
  Body : Except GoError String
  RetryNum : String

/-- The struct `SlackListener` (slack.go:24-33).  The pointer fields `client`,
`projectList`, `userList` and `interactorFactory` are the collaborators of
`SlackEnv`; what they point to lives in the world.  The mutex `mu` has no state
in a sequential run. -/
structure SlackListener where
  verificationToken : String
  coordinator : Option Coordinator
deriving DecidableEq, Repr

/-- The collaborators of a `SlackListener`. -/
structure SlackEnv (σ : Type) where
  client_PostMessage : String → Option MsgOption → σ → Option GoError × σ
  projectList_Items : σ → List DeployProject
  projectList_Reload : σ → Unit × σ
  userList_Reload : σ → Unit × σ
  projectList_FindByAlias : String → σ → Except GoError DeployProject × σ
  userList_FindBySlackUserID : String → σ → User × σ
  interactorFactory_Get : DeployProject → String → σ → Interactor × σ
  interactor_BranchList : Interactor → DeployProject → String →
    σ → Except GoError (List Block) × σ
  interactor_Request : Interactor → DeployProject → String → String → String → String →
    σ → Except GoError (List Block) × σ
  slackcmd_Parse : String → σ → Option Command × σ
  deploy_NewCoordinator : String → String → σ → Coordinator × σ
  coordinator_Lock : Coordinator → String → String → String → String →
    σ → Option GoError × σ
  coordinator_Unlock : Coordinator → String → String → String → Bool →
    σ → Option GoError × σ
  strconv_Atoi : String → Int
  slackevents_ParseEvent : String → String → Except GoError EventsAPIEvent
  json_UnmarshalChallenge : String → Except GoError String
  w_WriteHeader : Nat → σ → Unit × σ
  w_HeaderSet : String → String → σ → Unit × σ
  w_Write : String → σ → Option GoError × σ

/-! ## slack.go: regular expressions -/

/-- Whether a pattern of literal characters matches somewhere in the text. -/
def matchLiteral (pat : List Char) : List Char → Bool
  | [] => pat.isPrefixOf []
  | c :: cs => pat.isPrefixOf (c :: cs) || matchLiteral pat cs

/-- `regexp.MustCompile(pat).MatchString(text)` for a pattern without
metacharacters. -/
def MatchString (pat : String) (text : String) : Bool :=
  matchLiteral pat.data text.data

/-- The character class `[0-9a-zA-Z-]`. -/
def isAliasChar (c : Char) : Bool :=
  c.isAlphanum || c == '-'

/-- The alternatives of `(staging|production|sandbox|stg|pro|prd)`, in order. -/
def phaseAlternatives : List String :=
  ["staging", "production", "sandbox", "stg", "pro", "prd"]

/-- The first alternative after which the rest of the pattern, `suffix`, matches. -/
def matchPhaseAt (suffix : List Char) (cs : List Char) : List String → Option (List Char)
  | [] => none
  | p :: ps =>
    if (p.data ++ suffix).isPrefixOf cs then some (p.data ++ suffix)
    else matchPhaseAt suffix cs ps

/-- A match of `deploy ([0-9a-zA-Z-]+) (staging|production|sandbox|stg|pro|prd)`
followed by the literal `suffix`, anchored at the start of `cs`; the result is the
matched text.  The class excludes the blank, so the greedy `+` never has to give
back a character. -/
def matchDeployAt (suffix : List Char) (cs : List Char) : Option (List Char) :=
  if "deploy ".data.isPrefixOf cs then
    let rest := cs.drop "deploy ".data.length
    let name := rest.takeWhile isAliasChar
    match name, rest.dropWhile isAliasChar with
    | [], _ => none
    | _ :: _, ' ' :: rest2 =>
      match matchPhaseAt suffix rest2 phaseAlternatives with
      | some m => some ("deploy ".data ++ name ++ ' ' :: m)
      | none => none
    | _ :: _, _ => none
  else none

/-- The leftmost match: element `[0][0]` of `FindAllStringSubmatch(text, -1)`, or
`none` when that result is nil. -/
def findDeploy (suffix : List Char) : List Char → Option (List Char)
  | [] => matchDeployAt suffix []
  | c :: cs =>
    match matchDeployAt suffix (c :: cs) with
    | some m => some m
    | none => findDeploy suffix cs

/-- `strings.Split(s, " ")`. -/
def stringsSplit : List Char → List (List Char)
  | [] => [[]]
  | c :: cs =>
    if c = ' ' then [] :: stringsSplit cs
    else
      match stringsSplit cs with
      | [] => [[c]]
      | w :: ws => (c :: w) :: ws

/-! ## slack.go: messages -/

/-- `SlackListener.infoMessage` (slack.go:353-357). -/
def infoMessage (message : String) : MsgOption :=
  ⟨[Block.Section message]⟩

/-- `SlackListener.errorMessage` (slack.go:359-363). -/
def errorMessage (message : String) : MsgOption :=
  ⟨[Block.Section message]⟩

/-- `SlackListener.toPhase` (slack.go:365-376). -/
def toPhase (str : String) : String :=
  if str = "pro" ∨ str = "prd" ∨ str = "production" then "production"
  else if str = "stg" ∨ str = "staging" then "staging"
  else if str = "sandbox" then "sandbox"
  else "staging"

/-- `SlackListener.helpMessage` (slack.go:197-213). -/
def helpMessage : MsgOption :=
  ⟨[Block.Section "*masterのデプロイ*\n`@bot-name deploy api staging`\napiの部分はその他アプリケーションに置換可能です。stagingの部分はproductionやsandboxに置換可能です。\nコマンド入力後にデプロイするかの確認ボタンが出てきます。",
    Block.Section "*ブランチのデプロイ*\n`@bot-name deploy api staging branch`\napiの部分はその他アプリケーションに置換可能です。stagingの部分はproductionやsandboxに置換可能です。\nブランチを選択するドロップダウンが出てきます。\nブランチ選択後にデプロイするかの確認ボタンが出てきます。",
    Block.Section "*デプロイ対象の選択をSlackのUIから選択するデプロイ手法*\n`@bot-name deploy staging`\nstagingの部分はproductionやsandboxに置換可能です。\nデプロイ対象の選択後にデプロイするブランチの選択肢が出てきます。",
    Block.CloseButton]⟩

/-- The text `projectListMessage` builds in its loop (slack.go:216-219). -/
def projectListText (items : List DeployProject) : String :=
  items.foldl (fun text pj => text ++ ("*" ++ pj.ID ++ "* (" ++ pj.GitHubRepository ++ ")\n")) ""

/-- `SlackListener.projectListMessage` (slack.go:215-228). -/
def projectListMessage (items : List DeployProject) : MsgOption :=
  ⟨[Block.Section (projectListText items), Block.CloseButton]⟩

/-- `createDeployButtonSection` (slack.go:243-254). -/
def createDeployButtonSection (pj : DeployProject) (phaseName : String) : Block :=
  let action := if pj.DisableBranchDeploy then "request" else "branchlist"
  let phase := pj.FindPhase phaseName
  Block.ButtonSection ("*" ++ pj.ID ++ "* (" ++ pj.GitHubRepository ++ ")") "Deploy"
    ("deploy_" ++ phase.Kind ++ "_" ++ action ++ "|" ++ pj.ID ++ "_" ++ phase.Name)

/-- `SlackListener.SelectDeployTarget` (slack.go:231-241). -/
def SelectDeployTarget (items : List DeployProject) (phase : String) : MsgOption :=
  ⟨Block.Section ":cat:" :: (items.map fun pj => createDeployButtonSection pj phase)
    ++ [Block.CloseButton]⟩

/-- The acknowledgement of `reload` (slack.go:104-105). -/
def reloadedMessage : MsgOption :=
  ⟨[Block.Section "Deploy Projects and Users is Reloaded"]⟩

/-! ## slack.go: operations

Methods with the pointer receiver `s *SlackListener` that may assign a field take
the listener and give it back; `ServeHTTP`, whose receiver is the value
`s SlackListener`, takes the listener and gives nothing back. -/

/-- The statement `if _, _, err := s.client.PostMessage(channel, opt); err != nil`,
whose body only logs. -/
def PostMessage {σ : Type} (env : SlackEnv σ) (channel : String) (opt : Option MsgOption) :
    Eff σ Unit := do
  let _ ← call (Event.PostMessage channel opt) (env.client_PostMessage channel opt)
  pure ()

/-- `SlackListener.validateProjectEnvUser` (slack.go:313-342). -/
def validateProjectEnvUser {σ : Type} (env : SlackEnv σ) (projectID : String) (envName : String)
    (userID : String) (replyIn : String) : Eff σ Bool := do
  let r ← call (Event.FindByAlias projectID) (env.projectList_FindByAlias projectID)
  match r with
  | Except.error err => do
    PostMessage env replyIn (some (errorMessage err.Error))
    pure false
  | Except.ok pj =>
    if (pj.FindPhase envName).None then do
      PostMessage env replyIn (some (errorMessage ("phase " ++ envName ++ " is not found")))
      pure false
    else do
      let user ← call (Event.FindBySlackUserID userID) (env.userList_FindBySlackUserID userID)
      if !user.IsDeveloper then do
        PostMessage env replyIn (some (errorMessage "you are not allowed to lock this project"))
        pure false
      else
        pure true

/-- `SlackListener.getOrCreateCoordinator` (slack.go:344-351). -/
def getOrCreateCoordinator {σ : Type} (env : SlackEnv σ) (s : SlackListener) :
    Eff σ (Coordinator × SlackListener) :=
  match s.coordinator with
  | none => do
    let c ← call (Event.NewCoordinator "gocat" "deploylocks")
      (env.deploy_NewCoordinator "gocat" "deploylocks")
    pure (c, ⟨s.verificationToken, some c⟩)
  | some c => pure (c, s)

/-- `SlackListener.lock` (slack.go:280-294). -/
def lock {σ : Type} (env : SlackEnv σ) (s : SlackListener) (cmd : Lock) (triggeredBy : String)
    (replyIn : String) : Eff σ (Option MsgOption × SlackListener) := do
  let ok ← validateProjectEnvUser env cmd.Project cmd.Env triggeredBy replyIn
  if !ok then
    pure (none, s)
  else do
    let c ← getOrCreateCoordinator env s
    let err ← call (Event.CoordinatorLock c.1 cmd.Project cmd.Env triggeredBy cmd.Reason)
      (env.coordinator_Lock c.1 cmd.Project cmd.Env triggeredBy cmd.Reason)
    match err with
    | some e => do
      PostMessage env replyIn (some (errorMessage e.Error))
      pure (none, c.2)
    | none =>
      pure (some (infoMessage ("Locked " ++ cmd.Project ++ " " ++ cmd.Env)), c.2)

/-- `SlackListener.unlock` (slack.go:297-311). -/
def unlock {σ : Type} (env : SlackEnv σ) (s : SlackListener) (cmd : Unlock)
    (triggeredBy : String) (replyIn : String) (force : Bool) :
    Eff σ (Option MsgOption × SlackListener) := do
  let ok ← validateProjectEnvUser env cmd.Project cmd.Env triggeredBy replyIn
  if !ok then
    pure (none, s)
  else do
    let c ← getOrCreateCoordinator env s
    let err ← call (Event.CoordinatorUnlock c.1 cmd.Project cmd.Env triggeredBy force)
      (env.coordinator_Unlock c.1 cmd.Project cmd.Env triggeredBy force)
    match err with
    | some e => do
      PostMessage env replyIn (some (errorMessage e.Error))
      pure (none, c.2)
    | none =>
      pure (some (infoMessage ("Unlocked " ++ cmd.Project ++ " " ++ cmd.Env)), c.2)

/-- `SlackListener.runCommand` (slack.go:260-277). -/
def runCommand {σ : Type} (env : SlackEnv σ) (s : SlackListener) (cmd : Command)
    (triggeredBy : String) (replyIn : String) :
    Eff σ (Except Panic (Option GoError) × SlackListener) :=
  match cmd with
  | Command.Lock cmd => do
    let r ← lock env s cmd triggeredBy replyIn
    PostMessage env replyIn r.1
    pure (Except.ok none, r.2)
  | Command.Unlock cmd => do
    let r ← unlock env s cmd triggeredBy replyIn false
    PostMessage env replyIn r.1
    pure (Except.ok none, r.2)
  | Command.Other _ =>
    pure (Except.error ⟨"unreachable"⟩, s)

/-- The body shared by the two `deploy <project> <phase>` branches up to the call
of the interactor (slack.go:115-126 and 143-154): split the match at blanks,
resolve `commands[1]`, map `commands[2]` to a phase, get the interactor, then run
`k`, and post what it gives. -/
def deployBranch {σ : Type} (env : SlackEnv σ) (s : SlackListener) (ev : AppMentionEvent)
    (m : List Char)
    (k : Interactor → DeployProject → String → Eff σ (Except GoError (List Block))) :
    Eff σ (Except Panic (Option GoError) × SlackListener) :=
  match stringsSplit m with
  | _ :: c1 :: c2 :: _ => do
    let r ← call (Event.FindByAlias (String.mk c1)) (env.projectList_FindByAlias (String.mk c1))
    match r with
    | Except.error err => do
      PostMessage env ev.Channel (some (errorMessage err.Error))
      pure (Except.ok none, s)
    | Except.ok target => do
      let phase := toPhase (String.mk c2)
      let interactor ← call (Event.InteractorGet target phase)
        (env.interactorFactory_Get target phase)
      let b ← k interactor target phase
      match b with
      | Except.error err => do
        PostMessage env ev.Channel (some (errorMessage err.Error))
        pure (Except.ok none, s)
      | Except.ok blocks => do
        PostMessage env ev.Channel (some ⟨blocks⟩)
        pure (Except.ok none, s)
  | _ => pure (Except.error ⟨"index out of range"⟩, s)

/-- The three branches `deploy staging`, `deploy production`, `deploy sandbox`
(slack.go:169-189). -/
def selectBranch {σ : Type} (env : SlackEnv σ) (s : SlackListener) (ev : AppMentionEvent)
    (phase : String) : Eff σ (Except Panic (Option GoError) × SlackListener) :=
  fun sys =>
    (do
      PostMessage env ev.Channel (some (SelectDeployTarget (env.projectList_Items sys.world) phase))
      pure (Except.ok none, s) : Eff σ _) sys

/-- `SlackListener.handleMessageEvent` (slack.go:86-195). -/
def handleMessageEvent {σ : Type} (env : SlackEnv σ) (s : SlackListener) (ev : AppMentionEvent) :
    Eff σ (Except Panic (Option GoError) × SlackListener) :=
  if MatchString "help" ev.Text then do
    PostMessage env ev.Channel (some helpMessage)
    pure (Except.ok none, s)
  else if MatchString "ls" ev.Text then
    fun sys =>
      (do
        PostMessage env ev.Channel (some (projectListMessage (env.projectList_Items sys.world)))
        pure (Except.ok none, s) : Eff σ _) sys
  else if MatchString "reload" ev.Text then do
    call Event.ProjectListReload env.projectList_Reload
    call Event.UserListReload env.userList_Reload
    PostMessage env ev.Channel (some reloadedMessage)
    pure (Except.ok none, s)
  else do
    call Event.ProjectListReload env.projectList_Reload
    call Event.UserListReload env.userList_Reload
    match findDeploy " branch".data ev.Text.data with
    | some m =>
      deployBranch env s ev m fun interactor target phase =>
        call (Event.BranchList interactor target phase)
          (env.interactor_BranchList interactor target phase)
    | none =>
      match findDeploy [] ev.Text.data with
      | some m =>
        deployBranch env s ev m fun interactor target phase =>
          call (Event.Request interactor target phase target.DefaultBranch ev.User ev.Channel)
            (env.interactor_Request interactor target phase target.DefaultBranch ev.User
              ev.Channel)
      | none =>
        if MatchString "deploy staging" ev.Text then
          selectBranch env s ev "staging"
        else if MatchString "deploy production" ev.Text then
          selectBranch env s ev "production"
        else if MatchString "deploy sandbox" ev.Text then
          selectBranch env s ev "sandbox"
        else do
          let cmd ← call (Event.Parse ev.Text) (env.slackcmd_Parse ev.Text)
          match cmd with
          | some cmd => runCommand env s cmd ev.User ev.Channel
          | none => pure (Except.ok none, s)

/-- The statement `w.WriteHeader(http.StatusInternalServerError)`. -/
def internalServerError {σ : Type} (env : SlackEnv σ) : Eff σ (Except Panic Unit) := do
  call (Event.WriteHeader 500) (env.w_WriteHeader 500)
  pure (Except.ok ())

/-- `SlackListener.ServeHTTP` (slack.go:35-84).  The receiver is a value: the
method works on its own copy `s` of the listener, `s.handleMessageEvent(ev)` passes
the address of that copy, and the copy is dropped when the method returns. -/
def ServeHTTP {σ : Type} (env : SlackEnv σ) (s : SlackListener) (r : Request) :
    Eff σ (Except Panic Unit) :=
  match r.Body with
  | Except.error _ => internalServerError env
  | Except.ok body =>
    if r.RetryNum ≠ "" ∧ env.strconv_Atoi r.RetryNum > 0 then
      pure (Except.ok ())
    else
      match env.slackevents_ParseEvent body s.verificationToken with
      | Except.error _ => internalServerError env
      | Except.ok eventsAPIEvent =>
        if eventsAPIEvent.EventType = EventType.URLVerification then
          match env.json_UnmarshalChallenge body with
          | Except.error _ => internalServerError env
          | Except.ok challenge => do
            call (Event.HeaderSet "Content-Type" "text") (env.w_HeaderSet "Content-Type" "text")
            let err ← call (Event.Write challenge) (env.w_Write challenge)
            match err with
            | some _ => internalServerError env
            | none => pure (Except.ok ())
        else if eventsAPIEvent.EventType = EventType.CallbackEvent then
          match eventsAPIEvent.InnerEvent with
          | InnerEventData.AppMentionEvent ev => do
            let res ← handleMessageEvent env s ev
            match res.1 with
            | Except.error p => pure (Except.error p)
            | Except.ok (some _) => internalServerError env
            | Except.ok none => pure (Except.ok ())
          | InnerEventData.Other => pure (Except.ok ())
        else
          pure (Except.ok ())

/-- The HTTP server handing a sequence of requests, one after the other, to the
handler it was registered with: each request is a call `h.ServeHTTP(w, r)` on the
same handler value `h`, and a panic ends only the request it happens in. -/
def serve {σ : Type} (env : SlackEnv σ) (h : SlackListener) : List Request → Eff σ Unit
  | [] => pure ()
  | r :: rs => do
    let _ ← ServeHTTP env h r
    serve env h rs

/-! ## Reading a trace -/

/-- The pull request ids `MergePullRequest` was called with, in order. -/
def mergeCalls : List Event → List String
  | [] => []
  | Event.MergePullRequest id :: t => id :: mergeCalls t
  | _ :: t => mergeCalls t

/-- The number of calls of `plugin.Prepare`. -/
def prepareCalls : List Event → Nat
  | [] => 0
  | Event.Prepare _ _ _ _ _ :: t => prepareCalls t + 1
  | _ :: t => prepareCalls t

/-- The number of calls of `deploy.NewCoordinator`. -/
def newCoordinatorCalls : List Event → Nat
  | [] => 0
  | Event.NewCoordinator _ _ :: t => newCoordinatorCalls t + 1
  | _ :: t => newCoordinatorCalls t

/-- The calls of `Coordinator.Lock`: coordinator, project, environment, requester
and reason of each, in order. -/
def lockCalls : List Event → List (Coordinator × String × String × String × String)
  | [] => []
  | Event.CoordinatorLock c project env user reason :: t =>
    (c, project, env, user, reason) :: lockCalls t
  | _ :: t => lockCalls t

/-- The calls of `Coordinator.Unlock`: coordinator, project, environment,
requester and the flag `force` of each, in order. -/
def unlockCalls : List Event → List (Coordinator × String × String × String × Bool)
  | [] => []
  | Event.CoordinatorUnlock c project env user force :: t =>
    (c, project, env, user, force) :: unlockCalls t
  | _ :: t => unlockCalls t

/-- The calls of `client.PostMessage`: channel and message option of each, in
order. -/
def postedMessages : List Event → List (String × Option MsgOption)
  | [] => []
  | Event.PostMessage channel opt :: t => (channel, opt) :: postedMessages t
  | _ :: t => postedMessages t

/-! ## Sample collaborators -/

/-- A project with every phase present. -/
def sampleProject : DeployProject :=
  ⟨"api", false, "zaiminc/api", "master", fun name => ⟨name, "kubernetes", false⟩⟩

/-- A deploy option. -/
def sampleOption : DeployOption :=
  ⟨"feature", ⟨true⟩, ""⟩

/-- A pipeline whose plugin prepares pull request `PR_7` with the given status and
error, and whose merge gives the given error.  The world counts the calls. -/
def sampleGitOps (status : DeployStatus) (prepareErr : Option GoError)
    (mergeErr : Option GoError) : ModelGitOps Nat :=
  ⟨fun _ w => (mergeErr, w + 1),
   fun _ _ branch _ _ w => ((⟨"PR_7", 7, branch, status⟩, prepareErr), w + 1)⟩

/-- A stand-in for `slackcmd.Parse` that knows four texts. -/
def sampleParse (text : String) : Option Command :=
  if text = "lock api production for release" then
    some (Command.Lock ⟨"api", "production", "release"⟩)
  else if text = "lock tools production for maintenance" then
    some (Command.Lock ⟨"tools", "production", "maintenance"⟩)
  else if text = "lock nosuch production for release" then
    some (Command.Lock ⟨"nosuch", "production", "release"⟩)
  else if text = "unlock api production" then
    some (Command.Unlock ⟨"api", "production"⟩)
  else none

/-- Collaborators over a world that counts the coordinators constructed so far:
the projects `api` and `tools` exist, with every phase; the user `U1` is a
developer; every body is an app mention by `U1` in channel `C1` with the body as
text; `Coordinator.Lock` and `Coordinator.Unlock` give the error `opErr`; each
`deploy.NewCoordinator` gives a new coordinator. -/
def sampleSlack (opErr : Option GoError) : SlackEnv Nat where
  client_PostMessage _ _ w := (none, w)
  projectList_Items _ := [sampleProject]
  projectList_Reload w := ((), w)
  userList_Reload w := ((), w)
  projectList_FindByAlias name w :=
    if name = "api" ∨ name = "tools" then (Except.ok sampleProject, w)
    else (Except.error ⟨"project is not found"⟩, w)
  userList_FindBySlackUserID userID w := (⟨decide (userID = "U1")⟩, w)
  interactorFactory_Get _ _ w := (⟨0⟩, w)
  interactor_BranchList _ _ _ w := (Except.ok [], w)
  interactor_Request _ _ _ _ _ _ w := (Except.ok [], w)
  slackcmd_Parse text w := (sampleParse text, w)
  deploy_NewCoordinator _ _ w := (⟨w⟩, w + 1)
  coordinator_Lock _ _ _ _ _ w := (opErr, w)
  coordinator_Unlock _ _ _ _ _ w := (opErr, w)
  strconv_Atoi _ := 0
  slackevents_ParseEvent body _ :=
    Except.ok ⟨EventType.CallbackEvent, InnerEventData.AppMentionEvent ⟨body, "C1", "U1"⟩⟩
  json_UnmarshalChallenge body := Except.ok body
  w_WriteHeader _ w := ((), w)
  w_HeaderSet _ _ w := ((), w)
  w_Write _ w := (none, w)

/-- A request that carries the given body and is not a retry. -/
def sampleRequest (body : String) : Request :=
  ⟨Except.ok body, ""⟩

/-- A listener as it is before any request: no coordinator yet. -/
def sampleListener : SlackListener :=
  ⟨"token", none⟩

/-! ## Theorems -/

section Effects

variable {σ α β : Type}

@[simp] theorem run_pure (a : α) (s : Sys σ) : (pure a : Eff σ α) s = (a, s) := rfl

@[simp] theorem run_bind (m : Eff σ α) (f : α → Eff σ β) (s : Sys σ) :
    (m >>= f) s = f (m s).1 (m s).2 := rfl

@[simp] theorem run_call (e : Event) (f : σ → α × σ) (s : Sys σ) :
    call e f s = ((f s.world).1, ⟨(f s.world).2, s.trace ++ [e]⟩) := rfl

end Effects

/-- What `Deploy` does, in full: its results, the world it leaves and the calls
it makes. -/
theorem Deploy_run {σ : Type} (self : ModelGitOps σ) (pj : DeployProject) (phase : String)
    (option : DeployOption) (sys : Sys σ) :
    self.Deploy pj phase option sys =
      match self.plugin_Prepare pj phase option.Branch option.Assigner option.Tag sys.world with
      | ((_, some e), w1) =>
        ((none, some e),
          ⟨w1, sys.trace ++ [Event.Prepare pj phase option.Branch option.Assigner option.Tag]⟩)
      | ((o, none), w1) =>
        if o.Status = DeployStatusSuccess then
          match self.github_MergePullRequest o.PullRequestID w1 with
          | (some e, w2) =>
            ((none, some e),
              ⟨w2, sys.trace ++ [Event.Prepare pj phase option.Branch option.Assigner option.Tag]
                ++ [Event.MergePullRequest o.PullRequestID]⟩)
          | (none, w2) =>
            ((some o, none),
              ⟨w2, sys.trace ++ [Event.Prepare pj phase option.Branch option.Assigner option.Tag]
                ++ [Event.MergePullRequest o.PullRequestID]⟩)
        else
          ((some o, none),
            ⟨w1, sys.trace ++ [Event.Prepare pj phase option.Branch option.Assigner option.Tag]⟩) := by
  simp only [ModelGitOps.Deploy, ModelGitOps.Commit, run_bind, run_call]
  rcases hp : self.plugin_Prepare pj phase option.Branch option.Assigner option.Tag sys.world
    with ⟨⟨o, _ | e⟩, w1⟩
  · simp only []
    by_cases hs : o.Status = DeployStatusSuccess
    · simp only [hs, if_true, run_bind, run_call]
      rcases hm : self.github_MergePullRequest o.PullRequestID w1 with ⟨_ | e, w2⟩ <;> rfl
    · simp only [hs, if_false]; rfl
  · rfl

/-- C1 (gated commit).  Whatever the plugin and the Git host do, `Deploy` calls
`plugin.Prepare` first and exactly once; it calls `MergePullRequest` not at all when
`Prepare` gives an error or a status other than Success, and exactly once, with the
`PullRequestID` of the prepared change, when `Prepare` gives no error and Success. -/
theorem Deploy_gated_commit {σ : Type} (self : ModelGitOps σ) (pj : DeployProject)
    (phase : String) (option : DeployOption) (w : σ)
    (p : (GitOpsPrepareOutput × Option GoError) × σ)
    (hp : self.plugin_Prepare pj phase option.Branch option.Assigner option.Tag w = p) :
    (self.Deploy pj phase option ⟨w, []⟩).2.trace.head?
        = some (Event.Prepare pj phase option.Branch option.Assigner option.Tag) ∧
      prepareCalls (self.Deploy pj phase option ⟨w, []⟩).2.trace = 1 ∧
      (p.1.2 ≠ none ∨ p.1.1.Status ≠ DeployStatusSuccess →
        mergeCalls (self.Deploy pj phase option ⟨w, []⟩).2.trace = []) ∧
      (p.1.2 = none ∧ p.1.1.Status = DeployStatusSuccess →
        mergeCalls (self.Deploy pj phase option ⟨w, []⟩).2.trace = [p.1.1.PullRequestID]) := by
  subst hp
  rw [Deploy_run]
  rcases hq : self.plugin_Prepare pj phase option.Branch option.Assigner option.Tag w
    with ⟨⟨o, _ | e⟩, w1⟩
  · by_cases hs : o.Status = DeployStatusSuccess
    · rcases hm : self.github_MergePullRequest o.PullRequestID w1 with ⟨_ | m, w2⟩ <;>
        simp [hs, hm, prepareCalls, mergeCalls]
    · simp [hs, prepareCalls, mergeCalls]
  · simp [prepareCalls, mergeCalls]

/-- C1 at a plugin that reports Pending: one `Prepare`, no merge. -/
theorem Deploy_gated_commit_witness :
    mergeCalls ((sampleGitOps DeployStatus.Pending none none).Deploy sampleProject "staging"
      sampleOption ⟨0, []⟩).2.trace = [] :=
  (Deploy_gated_commit (sampleGitOps DeployStatus.Pending none none) sampleProject "staging"
    sampleOption 0 _ rfl).2.2.1 (Or.inr (by decide))

/-- C2 (prepare failure).  When `plugin.Prepare` gives the error `e`, whatever
status its output carries, `Deploy` gives back exactly `e` (with the nil output),
and `Prepare` is the only call it made: no merge is attempted. -/
theorem Deploy_prepare_error {σ : Type} (self : ModelGitOps σ) (pj : DeployProject)
    (phase : String) (option : DeployOption) (w w1 : σ) (o : GitOpsPrepareOutput) (e : GoError)
    (hp : self.plugin_Prepare pj phase option.Branch option.Assigner option.Tag w
      = ((o, some e), w1)) :
    (self.Deploy pj phase option ⟨w, []⟩).1 = (none, some e) ∧
      (self.Deploy pj phase option ⟨w, []⟩).2.trace
        = [Event.Prepare pj phase option.Branch option.Assigner option.Tag] ∧
      mergeCalls (self.Deploy pj phase option ⟨w, []⟩).2.trace = [] ∧
      (self.Deploy pj phase option ⟨w, []⟩).2.world = w1 := by
  rw [Deploy_run, hp]
  simp [mergeCalls]

/-- C2 at a plugin that fails while its output says Success. -/
theorem Deploy_prepare_error_witness :
    ((sampleGitOps DeployStatus.Success (some ⟨"prepare failed"⟩) none).Deploy sampleProject
        "production" sampleOption ⟨0, []⟩).1 = (none, some ⟨"prepare failed"⟩) ∧
      mergeCalls ((sampleGitOps DeployStatus.Success (some ⟨"prepare failed"⟩) none).Deploy
        sampleProject "production" sampleOption ⟨0, []⟩).2.trace = [] :=
  have h := Deploy_prepare_error (sampleGitOps DeployStatus.Success (some ⟨"prepare failed"⟩) none)
    sampleProject "production" sampleOption 0 1 ⟨"PR_7", 7, "feature", DeployStatus.Success⟩
    ⟨"prepare failed"⟩ rfl
  ⟨h.1, h.2.2.1⟩

/-- C3 (merge failure isolation).  When `plugin.Prepare` gives no error and
Success and `MergePullRequest` gives the error `m`, `Deploy` gives back exactly `m`
(with the nil output); its calls are `Prepare` and then one `MergePullRequest` of
the prepared pull request, nothing more, and the world is left as that one merge
call left it. -/
theorem Deploy_merge_error {σ : Type} (self : ModelGitOps σ) (pj : DeployProject)
    (phase : String) (option : DeployOption) (w w1 w2 : σ) (o : GitOpsPrepareOutput)
    (m : GoError)
    (hp : self.plugin_Prepare pj phase option.Branch option.Assigner option.Tag w
      = ((o, none), w1))
    (hs : o.Status = DeployStatusSuccess)
    (hm : self.github_MergePullRequest o.PullRequestID w1 = (some m, w2)) :
    (self.Deploy pj phase option ⟨w, []⟩).1 = (none, some m) ∧
      (self.Deploy pj phase option ⟨w, []⟩).2.trace
        = [Event.Prepare pj phase option.Branch option.Assigner option.Tag,
            Event.MergePullRequest o.PullRequestID] ∧
      mergeCalls (self.Deploy pj phase option ⟨w, []⟩).2.trace = [o.PullRequestID] ∧
      (self.Deploy pj phase option ⟨w, []⟩).2.world = w2 := by
  rw [Deploy_run, hp]
  simp [hs, hm, mergeCalls]

/-- C3 at a Git host whose merge fails. -/
theorem Deploy_merge_error_witness :
    ((sampleGitOps DeployStatus.Success none (some ⟨"merge conflict"⟩)).Deploy sampleProject
        "production" sampleOption ⟨0, []⟩).1 = (none, some ⟨"merge conflict"⟩) ∧
      mergeCalls ((sampleGitOps DeployStatus.Success none (some ⟨"merge conflict"⟩)).Deploy
        sampleProject "production" sampleOption ⟨0, []⟩).2.trace = ["PR_7"] :=
  have h := Deploy_merge_error (sampleGitOps DeployStatus.Success none (some ⟨"merge conflict"⟩))
    sampleProject "production" sampleOption 0 1 2 ⟨"PR_7", 7, "feature", DeployStatus.Success⟩
    ⟨"merge conflict"⟩ rfl rfl rfl
  ⟨h.1, h.2.2.1⟩

/-- C4 (return value).  `Deploy` gives a nil error exactly when `Prepare` gave no
error and either the prepared status is not Success or `MergePullRequest` (called
in the world `Prepare` left) gave no error; then its output is the very
`GitOpsPrepareOutput` of `Prepare`; and whenever its error is not nil its output
is nil. -/
theorem Deploy_return {σ : Type} (self : ModelGitOps σ) (pj : DeployProject)
    (phase : String) (option : DeployOption) (w : σ)
    (p : (GitOpsPrepareOutput × Option GoError) × σ)
    (hp : self.plugin_Prepare pj phase option.Branch option.Assigner option.Tag w = p) :
    ((self.Deploy pj phase option ⟨w, []⟩).1.2 = none ↔
        p.1.2 = none ∧ (p.1.1.Status ≠ DeployStatusSuccess ∨
          (self.github_MergePullRequest p.1.1.PullRequestID p.2).1 = none)) ∧
      ((self.Deploy pj phase option ⟨w, []⟩).1.2 = none →
        (self.Deploy pj phase option ⟨w, []⟩).1.1 = some p.1.1) ∧
      ((self.Deploy pj phase option ⟨w, []⟩).1.2 ≠ none →
        (self.Deploy pj phase option ⟨w, []⟩).1.1 = none) := by
  subst hp
  rw [Deploy_run]
  rcases hq : self.plugin_Prepare pj phase option.Branch option.Assigner option.Tag w
    with ⟨⟨o, _ | e⟩, w1⟩
  · by_cases hs : o.Status = DeployStatusSuccess
    · rcases hm : self.github_MergePullRequest o.PullRequestID w1 with ⟨_ | m, w2⟩ <;>
        simp [hs, hm]
    · simp [hs]
  · simp

/-- C4 at a plugin that reports Pending: the Pending output comes back with a nil
error. -/
theorem Deploy_return_witness :
    ((sampleGitOps DeployStatus.Pending none none).Deploy sampleProject "staging"
      sampleOption ⟨0, []⟩).1.1 = some ⟨"PR_7", 7, "feature", DeployStatus.Pending⟩ :=
  (Deploy_return (sampleGitOps DeployStatus.Pending none none) sampleProject "staging"
    sampleOption 0 _ rfl).2.1 rfl

/-- A literal pattern matches exactly when the text contains it. -/
theorem matchLiteral_iff (pat text : List Char) :
    matchLiteral pat text = true ↔ pat <:+: text := by
  induction text with
  | nil => simp [matchLiteral, List.isPrefixOf_iff_prefix]
  | cons c cs ih =>
    simp only [matchLiteral, Bool.or_eq_true, ih, List.isPrefixOf_iff_prefix,
      List.infix_cons_iff]

/-- `MatchString` on a literal pattern is substring containment. -/
theorem MatchString_iff (pat text : String) :
    MatchString pat text = true ↔ pat.data <:+: text.data :=
  matchLiteral_iff pat.data text.data

/-- What `validateProjectEnvUser` does, in full. -/
theorem validateProjectEnvUser_run {σ : Type} (env : SlackEnv σ) (projectID envName userID
    replyIn : String) (sys : Sys σ) :
    validateProjectEnvUser env projectID envName userID replyIn sys =
      match env.projectList_FindByAlias projectID sys.world with
      | (Except.error err, w1) =>
        (false, ⟨(env.client_PostMessage replyIn (some (errorMessage err.Error)) w1).2,
          sys.trace ++ [Event.FindByAlias projectID,
            Event.PostMessage replyIn (some (errorMessage err.Error))]⟩)
      | (Except.ok pj, w1) =>
        if (pj.FindPhase envName).None = true then
          (false, ⟨(env.client_PostMessage replyIn
              (some (errorMessage ("phase " ++ envName ++ " is not found"))) w1).2,
            sys.trace ++ [Event.FindByAlias projectID,
              Event.PostMessage replyIn
                (some (errorMessage ("phase " ++ envName ++ " is not found")))]⟩)
        else if (env.userList_FindBySlackUserID userID w1).1.IsDeveloper = true then
          (true, ⟨(env.userList_FindBySlackUserID userID w1).2,
            sys.trace ++ [Event.FindByAlias projectID, Event.FindBySlackUserID userID]⟩)
        else
          (false, ⟨(env.client_PostMessage replyIn
              (some (errorMessage "you are not allowed to lock this project"))
              (env.userList_FindBySlackUserID userID w1).2).2,
            sys.trace ++ [Event.FindByAlias projectID, Event.FindBySlackUserID userID,
              Event.PostMessage replyIn
                (some (errorMessage "you are not allowed to lock this project"))]⟩) := by
  simp only [validateProjectEnvUser, PostMessage, run_bind, run_call, run_pure]
  rcases hf : env.projectList_FindByAlias projectID sys.world with ⟨err | pj, w1⟩
  · simp
  · simp only []
    by_cases hn : (pj.FindPhase envName).None = true
    · simp [hn]
    · simp only [hn, if_false, run_bind, run_call, run_pure, Bool.false_eq_true]
      by_cases hd : (env.userList_FindBySlackUserID userID w1).1.IsDeveloper = true
      · simp [hd]
      · simp [hd]

/-- What `getOrCreateCoordinator` does on a listener without a coordinator. -/
theorem getOrCreateCoordinator_none {σ : Type} (env : SlackEnv σ) (s : SlackListener)
    (sys : Sys σ) (h : s.coordinator = none) :
    getOrCreateCoordinator env s sys =
      (((env.deploy_NewCoordinator "gocat" "deploylocks" sys.world).1,
          ⟨s.verificationToken, some (env.deploy_NewCoordinator "gocat" "deploylocks" sys.world).1⟩),
        ⟨(env.deploy_NewCoordinator "gocat" "deploylocks" sys.world).2,
          sys.trace ++ [Event.NewCoordinator "gocat" "deploylocks"]⟩) := by
  simp only [getOrCreateCoordinator, h, run_bind, run_call, run_pure]

/-- What `getOrCreateCoordinator` does on a listener that has a coordinator. -/
theorem getOrCreateCoordinator_some {σ : Type} (env : SlackEnv σ) (s : SlackListener)
    (sys : Sys σ) (c : Coordinator) (h : s.coordinator = some c) :
    getOrCreateCoordinator env s sys = ((c, s), sys) := by
  simp only [getOrCreateCoordinator, h, run_pure]

/-- The calls `getOrCreateCoordinator` adds to the trace. -/
theorem getOrCreateCoordinator_trace {σ : Type} (env : SlackEnv σ) (s : SlackListener)
    (sys : Sys σ) :
    (getOrCreateCoordinator env s sys).2.trace =
      sys.trace ++ (if s.coordinator = none then [Event.NewCoordinator "gocat" "deploylocks"]
        else []) := by
  rcases hc : s.coordinator with _ | c
  · rw [getOrCreateCoordinator_none env s sys hc]; simp
  · rw [getOrCreateCoordinator_some env s sys c hc]; simp

/-- When validation fails, `lock` is validation and nothing more. -/
theorem lock_invalid {σ : Type} (env : SlackEnv σ) (s : SlackListener) (cmd : Lock)
    (triggeredBy replyIn : String) (sys : Sys σ)
    (h : (validateProjectEnvUser env cmd.Project cmd.Env triggeredBy replyIn sys).1 = false) :
    lock env s cmd triggeredBy replyIn sys =
      ((none, s), (validateProjectEnvUser env cmd.Project cmd.Env triggeredBy replyIn sys).2) := by
  simp only [lock, run_bind, h, Bool.not_false, if_true, run_pure]

/-- When validation fails, `unlock` is validation and nothing more. -/
theorem unlock_invalid {σ : Type} (env : SlackEnv σ) (s : SlackListener) (cmd : Unlock)
    (triggeredBy replyIn : String) (force : Bool) (sys : Sys σ)
    (h : (validateProjectEnvUser env cmd.Project cmd.Env triggeredBy replyIn sys).1 = false) :
    unlock env s cmd triggeredBy replyIn force sys =
      ((none, s), (validateProjectEnvUser env cmd.Project cmd.Env triggeredBy replyIn sys).2) := by
  simp only [unlock, run_bind, h, Bool.not_false, if_true, run_pure]

/-- When validation passes, the calls of `lock` are those of validation, those of
`getOrCreateCoordinator`, one `Coordinator.Lock` on the coordinator it gave, and
at most one `PostMessage` of an error message. -/
theorem lock_valid_trace {σ : Type} (env : SlackEnv σ) (s : SlackListener) (cmd : Lock)
    (triggeredBy replyIn : String) (sys : Sys σ)
    (h : (validateProjectEnvUser env cmd.Project cmd.Env triggeredBy replyIn sys).1 = true) :
    ∃ tail : List Event,
      (lock env s cmd triggeredBy replyIn sys).2.trace =
        (getOrCreateCoordinator env s
            (validateProjectEnvUser env cmd.Project cmd.Env triggeredBy replyIn sys).2).2.trace
          ++ Event.CoordinatorLock
              (getOrCreateCoordinator env s
                (validateProjectEnvUser env cmd.Project cmd.Env triggeredBy replyIn sys).2).1.1
              cmd.Project cmd.Env triggeredBy cmd.Reason
          :: tail ∧
      (tail = [] ∨ ∃ e : GoError, tail = [Event.PostMessage replyIn (some (errorMessage e.Error))]) := by
  simp only [lock, run_bind, h, Bool.not_true, Bool.false_eq_true, if_false, run_call]
  generalize getOrCreateCoordinator env s
    (validateProjectEnvUser env cmd.Project cmd.Env triggeredBy replyIn sys).2 = g
  rcases hl : env.coordinator_Lock g.1.1 cmd.Project cmd.Env triggeredBy cmd.Reason g.2.world
    with ⟨_ | e, w⟩
  · exact ⟨[], by simp, Or.inl rfl⟩
  · exact ⟨[Event.PostMessage replyIn (some (errorMessage e.Error))],
      by simp [PostMessage], Or.inr ⟨e, rfl⟩⟩

/-- When validation passes, the calls of `unlock` are those of validation, those
of `getOrCreateCoordinator`, one `Coordinator.Unlock` on the coordinator it gave,
and at most one `PostMessage` of an error message. -/
theorem unlock_valid_trace {σ : Type} (env : SlackEnv σ) (s : SlackListener) (cmd : Unlock)
    (triggeredBy replyIn : String) (force : Bool) (sys : Sys σ)
    (h : (validateProjectEnvUser env cmd.Project cmd.Env triggeredBy replyIn sys).1 = true) :
    ∃ tail : List Event,
      (unlock env s cmd triggeredBy replyIn force sys).2.trace =
        (getOrCreateCoordinator env s
            (validateProjectEnvUser env cmd.Project cmd.Env triggeredBy replyIn sys).2).2.trace
          ++ Event.CoordinatorUnlock
              (getOrCreateCoordinator env s
                (validateProjectEnvUser env cmd.Project cmd.Env triggeredBy replyIn sys).2).1.1
              cmd.Project cmd.Env triggeredBy force
          :: tail ∧
      (tail = [] ∨ ∃ e : GoError, tail = [Event.PostMessage replyIn (some (errorMessage e.Error))]) := by
  simp only [unlock, run_bind, h, Bool.not_true, Bool.false_eq_true, if_false, run_call]
  generalize getOrCreateCoordinator env s
    (validateProjectEnvUser env cmd.Project cmd.Env triggeredBy replyIn sys).2 = g
  rcases hl : env.coordinator_Unlock g.1.1 cmd.Project cmd.Env triggeredBy force g.2.world
    with ⟨_ | e, w⟩
  · exact ⟨[], by simp, Or.inl rfl⟩
  · exact ⟨[Event.PostMessage replyIn (some (errorMessage e.Error))],
      by simp [PostMessage], Or.inr ⟨e, rfl⟩⟩

theorem newCoordinatorCalls_append (a b : List Event) :
    newCoordinatorCalls (a ++ b) = newCoordinatorCalls a + newCoordinatorCalls b := by
  induction a with
  | nil => simp [newCoordinatorCalls]
  | cons e t ih =>
    cases e
    all_goals simp [newCoordinatorCalls, ih]
    omega

theorem lockCalls_append (a b : List Event) :
    lockCalls (a ++ b) = lockCalls a ++ lockCalls b := by
  induction a with
  | nil => simp [lockCalls]
  | cons e t ih => cases e <;> simp [lockCalls, ih]

theorem unlockCalls_append (a b : List Event) :
    unlockCalls (a ++ b) = unlockCalls a ++ unlockCalls b := by
  induction a with
  | nil => simp [unlockCalls]
  | cons e t ih => cases e <;> simp [unlockCalls, ih]

theorem postedMessages_append (a b : List Event) :
    postedMessages (a ++ b) = postedMessages a ++ postedMessages b := by
  induction a with
  | nil => simp [postedMessages]
  | cons e t ih => cases e <;> simp [postedMessages, ih]

/-- Validation calls neither `deploy.NewCoordinator` nor `Coordinator.Lock` nor
`Coordinator.Unlock`. -/
theorem validateProjectEnvUser_no_coordinator {σ : Type} (env : SlackEnv σ)
    (projectID envName userID replyIn : String) (sys : Sys σ) :
    newCoordinatorCalls (validateProjectEnvUser env projectID envName userID replyIn sys).2.trace
        = newCoordinatorCalls sys.trace ∧
      lockCalls (validateProjectEnvUser env projectID envName userID replyIn sys).2.trace
        = lockCalls sys.trace ∧
      unlockCalls (validateProjectEnvUser env projectID envName userID replyIn sys).2.trace
        = unlockCalls sys.trace := by
  rw [validateProjectEnvUser_run]
  rcases hf : env.projectList_FindByAlias projectID sys.world with ⟨err | pj, w1⟩
  · simp [newCoordinatorCalls_append, lockCalls_append, unlockCalls_append,
      newCoordinatorCalls, lockCalls, unlockCalls]
  · by_cases hn : (pj.FindPhase envName).None = true
    · simp [hn, newCoordinatorCalls_append, lockCalls_append, unlockCalls_append,
        newCoordinatorCalls, lockCalls, unlockCalls]
    · by_cases hd : (env.userList_FindBySlackUserID userID w1).1.IsDeveloper = true
      · simp [hn, hd, newCoordinatorCalls_append, lockCalls_append, unlockCalls_append,
          newCoordinatorCalls, lockCalls, unlockCalls]
      · simp [hn, hd, newCoordinatorCalls_append, lockCalls_append, unlockCalls_append,
          newCoordinatorCalls, lockCalls, unlockCalls]

/-- Validation passes exactly when its three checks pass. -/
theorem validateProjectEnvUser_iff {σ : Type} (env : SlackEnv σ)
    (projectID envName userID replyIn : String) (sys : Sys σ) :
    (validateProjectEnvUser env projectID envName userID replyIn sys).1 = true ↔
      ∃ pj : DeployProject,
        (env.projectList_FindByAlias projectID sys.world).1 = Except.ok pj ∧
        (pj.FindPhase envName).None = false ∧
        (env.userList_FindBySlackUserID userID
          (env.projectList_FindByAlias projectID sys.world).2).1.IsDeveloper = true := by
  rw [validateProjectEnvUser_run]
  rcases hf : env.projectList_FindByAlias projectID sys.world with ⟨err | pj, w1⟩
  · simp
  · rcases hn : (pj.FindPhase envName).None with _ | _
    · rcases hd : (env.userList_FindBySlackUserID userID w1).1.IsDeveloper with _ | _
      · simp [hn, hd]
      · simp [hn, hd]
    · simp [hn]

/-- The calls of `runCommand` on a lock command: those of `lock`, then one
`PostMessage` of what `lock` returned. -/
theorem runCommand_lock_trace {σ : Type} (env : SlackEnv σ) (s : SlackListener) (cmd : Lock)
    (triggeredBy replyIn : String) (sys : Sys σ) :
    (runCommand env s (Command.Lock cmd) triggeredBy replyIn sys).2.trace =
      (lock env s cmd triggeredBy replyIn sys).2.trace
        ++ [Event.PostMessage replyIn (lock env s cmd triggeredBy replyIn sys).1.1] := by
  simp only [runCommand, PostMessage, run_bind, run_call, run_pure]

/-- The calls of `runCommand` on an unlock command: those of `unlock` with
`force = false`, then one `PostMessage` of what `unlock` returned. -/
theorem runCommand_unlock_trace {σ : Type} (env : SlackEnv σ) (s : SlackListener)
    (cmd : Unlock) (triggeredBy replyIn : String) (sys : Sys σ) :
    (runCommand env s (Command.Unlock cmd) triggeredBy replyIn sys).2.trace =
      (unlock env s cmd triggeredBy replyIn false sys).2.trace
        ++ [Event.PostMessage replyIn (unlock env s cmd triggeredBy replyIn false sys).1.1] := by
  simp only [runCommand, PostMessage, run_bind, run_call, run_pure]

/-- C6 (authorization before mutation).  `validateProjectEnvUser` returns true
exactly when `FindByAlias` resolves the project, the environment is a phase of it
(`FindPhase(env).None()` is false) and the user found for the triggering id is a
developer.  When it returns false, `lock` and `unlock` return nil with the listener
as it was, and their runs contain no call of `deploy.NewCoordinator`,
`Coordinator.Lock` or `Coordinator.Unlock`. -/
theorem lock_unlock_authorized {σ : Type} (env : SlackEnv σ) (s : SlackListener)
    (projectID envName userID replyIn reason : String) (force : Bool) (w : σ) :
    ((validateProjectEnvUser env projectID envName userID replyIn ⟨w, []⟩).1 = true ↔
        ∃ pj : DeployProject,
          (env.projectList_FindByAlias projectID w).1 = Except.ok pj ∧
          (pj.FindPhase envName).None = false ∧
          (env.userList_FindBySlackUserID userID
            (env.projectList_FindByAlias projectID w).2).1.IsDeveloper = true) ∧
      ((validateProjectEnvUser env projectID envName userID replyIn ⟨w, []⟩).1 = false →
        (lock env s ⟨projectID, envName, reason⟩ userID replyIn ⟨w, []⟩).1 = (none, s) ∧
        newCoordinatorCalls
          (lock env s ⟨projectID, envName, reason⟩ userID replyIn ⟨w, []⟩).2.trace = 0 ∧
        lockCalls (lock env s ⟨projectID, envName, reason⟩ userID replyIn ⟨w, []⟩).2.trace = [] ∧
        unlockCalls
          (lock env s ⟨projectID, envName, reason⟩ userID replyIn ⟨w, []⟩).2.trace = [] ∧
        (unlock env s ⟨projectID, envName⟩ userID replyIn force ⟨w, []⟩).1 = (none, s) ∧
        newCoordinatorCalls
          (unlock env s ⟨projectID, envName⟩ userID replyIn force ⟨w, []⟩).2.trace = 0 ∧
        lockCalls (unlock env s ⟨projectID, envName⟩ userID replyIn force ⟨w, []⟩).2.trace = [] ∧
        unlockCalls
          (unlock env s ⟨projectID, envName⟩ userID replyIn force ⟨w, []⟩).2.trace = []) := by
  refine ⟨validateProjectEnvUser_iff env projectID envName userID replyIn ⟨w, []⟩, fun h => ?_⟩
  have hv := validateProjectEnvUser_no_coordinator env projectID envName userID replyIn ⟨w, []⟩
  rw [lock_invalid env s ⟨projectID, envName, reason⟩ userID replyIn ⟨w, []⟩ h,
    unlock_invalid env s ⟨projectID, envName⟩ userID replyIn force ⟨w, []⟩ h]
  simp only [newCoordinatorCalls, lockCalls, unlockCalls] at hv
  exact ⟨rfl, hv.1, hv.2.1, hv.2.2, rfl, hv.1, hv.2.1, hv.2.2⟩

/-- C6 at a user who is not a developer: `lock` makes no coordinator call. -/
theorem lock_unlock_authorized_witness :
    lockCalls (lock (sampleSlack none) sampleListener ⟨"api", "production", "release"⟩ "U2" "C1"
      ⟨0, []⟩).2.trace = [] ∧
    newCoordinatorCalls (lock (sampleSlack none) sampleListener ⟨"api", "production", "release"⟩
      "U2" "C1" ⟨0, []⟩).2.trace = 0 :=
  have h := (lock_unlock_authorized (sampleSlack none) sampleListener "api" "production" "U2" "C1"
    "release" false 0).2 (by decide)
  ⟨h.2.2.1, h.2.1⟩

/-- C10 (chat unlock is never forced).  In a run of `runCommand` on an unlock
command, `Coordinator.Unlock` is called once if validation passes and not at all
otherwise, with the command's project and environment, the triggering user and
`force = false`; `Coordinator.Lock` is not called.  On a lock command,
`Coordinator.Lock` is called once if validation passes and not at all otherwise,
with the command's project, environment and reason and the triggering user;
`Coordinator.Unlock` is not called. -/
theorem runCommand_coordinator_arguments {σ : Type} (env : SlackEnv σ) (s : SlackListener)
    (triggeredBy replyIn : String) (w : σ) :
    (∀ cmd : Unlock,
      (unlockCalls
          (runCommand env s (Command.Unlock cmd) triggeredBy replyIn ⟨w, []⟩).2.trace).map Prod.snd
        = (if (validateProjectEnvUser env cmd.Project cmd.Env triggeredBy replyIn ⟨w, []⟩).1 = true
            then [(cmd.Project, cmd.Env, triggeredBy, false)] else []) ∧
      lockCalls (runCommand env s (Command.Unlock cmd) triggeredBy replyIn ⟨w, []⟩).2.trace = []) ∧
    (∀ cmd : Lock,
      (lockCalls
          (runCommand env s (Command.Lock cmd) triggeredBy replyIn ⟨w, []⟩).2.trace).map Prod.snd
        = (if (validateProjectEnvUser env cmd.Project cmd.Env triggeredBy replyIn ⟨w, []⟩).1 = true
            then [(cmd.Project, cmd.Env, triggeredBy, cmd.Reason)] else []) ∧
      unlockCalls (runCommand env s (Command.Lock cmd) triggeredBy replyIn ⟨w, []⟩).2.trace = []) := by
  constructor
  · intro cmd
    have hv := validateProjectEnvUser_no_coordinator env cmd.Project cmd.Env triggeredBy replyIn
      ⟨w, []⟩
    rw [runCommand_unlock_trace]
    rcases hval : (validateProjectEnvUser env cmd.Project cmd.Env triggeredBy replyIn ⟨w, []⟩).1
    · rw [unlock_invalid env s cmd triggeredBy replyIn false ⟨w, []⟩ hval]
      simp [unlockCalls_append, lockCalls_append, unlockCalls, lockCalls, hv]
    · obtain ⟨tail, ht, hc⟩ := unlock_valid_trace env s cmd triggeredBy replyIn false ⟨w, []⟩ hval
      rw [ht, getOrCreateCoordinator_trace]
      rcases hc with rfl | ⟨e, rfl⟩ <;> by_cases hn : s.coordinator = none <;>
        simp [unlockCalls_append, lockCalls_append, unlockCalls, lockCalls, hv, hn]
  · intro cmd
    have hv := validateProjectEnvUser_no_coordinator env cmd.Project cmd.Env triggeredBy replyIn
      ⟨w, []⟩
    rw [runCommand_lock_trace]
    rcases hval : (validateProjectEnvUser env cmd.Project cmd.Env triggeredBy replyIn ⟨w, []⟩).1
    · rw [lock_invalid env s cmd triggeredBy replyIn ⟨w, []⟩ hval]
      simp [unlockCalls_append, lockCalls_append, unlockCalls, lockCalls, hv]
    · obtain ⟨tail, ht, hc⟩ := lock_valid_trace env s cmd triggeredBy replyIn ⟨w, []⟩ hval
      rw [ht, getOrCreateCoordinator_trace]
      rcases hc with rfl | ⟨e, rfl⟩ <;> by_cases hn : s.coordinator = none <;>
        simp [unlockCalls_append, lockCalls_append, unlockCalls, lockCalls, hv, hn]

/-- C10 at an unlock by a developer: one `Coordinator.Unlock`, not forced. -/
theorem runCommand_coordinator_arguments_witness :
    (unlockCalls (runCommand (sampleSlack none) sampleListener (Command.Unlock ⟨"api", "production"⟩)
      "U1" "C1" ⟨0, []⟩).2.trace).map Prod.snd = [("api", "production", "U1", false)] :=
  ((runCommand_coordinator_arguments (sampleSlack none) sampleListener "U1" "C1" 0).1
    ⟨"api", "production"⟩).1.trans (by decide)

/-- C5 (coordinator singleton), evaluated on one listener that serves two lock
requests, one after the other, both passing validation: `deploy.NewCoordinator` is
called twice, and the second `Coordinator.Lock` is called on the second
coordinator, not on the one the first request stored. -/
theorem serve_constructs_coordinator_per_request :
    newCoordinatorCalls (serve (sampleSlack none) sampleListener
        [sampleRequest "lock api production for release",
          sampleRequest "lock api production for release"] ⟨0, []⟩).2.trace = 2 ∧
      (lockCalls (serve (sampleSlack none) sampleListener
        [sampleRequest "lock api production for release",
          sampleRequest "lock api production for release"] ⟨0, []⟩).2.trace).map Prod.fst
        = [⟨0⟩, ⟨1⟩] := by
  decide

/-- C8 (reply is a real message), evaluated on a lock command whose project alias
does not resolve and on an unlock command for which `Coordinator.Unlock` gives an
error: `PostMessage` is called twice, first with the error message and then, by
`runCommand`, with the nil option. -/
theorem runCommand_posts_nil_option :
    postedMessages (runCommand (sampleSlack none) sampleListener
        (Command.Lock ⟨"nosuch", "production", "release"⟩) "U1" "C1" ⟨0, []⟩).2.trace
      = [("C1", some (errorMessage "project is not found")), ("C1", none)] ∧
    postedMessages (runCommand (sampleSlack (some ⟨"not locked"⟩)) sampleListener
        (Command.Unlock ⟨"api", "production"⟩) "U1" "C1" ⟨0, []⟩).2.trace
      = [("C1", some (errorMessage "not locked")), ("C1", none)] := by
  decide

/-- C9 (keyword precedence).  If the text contains `help`, `handleMessageEvent`
posts the help message, and that is its only call.  If the text contains `ls`
and not `help`, its only call posts the project list.  If the text contains
`reload` and neither `help` nor `ls`, its calls are the two reloads and the post
of the acknowledgement.  In all three cases it returns nil and leaves the
listener as it was: no `FindByAlias`, no `slackcmd.Parse`, no interactor and no
coordinator call is made. -/
theorem handleMessageEvent_keywords {σ : Type} (env : SlackEnv σ) (s : SlackListener)
    (ev : AppMentionEvent) (sys : Sys σ) :
    ("help".data <:+: ev.Text.data →
      handleMessageEvent env s ev sys =
        ((Except.ok none, s),
          ⟨(env.client_PostMessage ev.Channel (some helpMessage) sys.world).2,
            sys.trace ++ [Event.PostMessage ev.Channel (some helpMessage)]⟩)) ∧
    (¬ "help".data <:+: ev.Text.data → "ls".data <:+: ev.Text.data →
      handleMessageEvent env s ev sys =
        ((Except.ok none, s),
          ⟨(env.client_PostMessage ev.Channel
              (some (projectListMessage (env.projectList_Items sys.world))) sys.world).2,
            sys.trace ++ [Event.PostMessage ev.Channel
              (some (projectListMessage (env.projectList_Items sys.world)))]⟩)) ∧
    (¬ "help".data <:+: ev.Text.data → ¬ "ls".data <:+: ev.Text.data →
      "reload".data <:+: ev.Text.data →
      handleMessageEvent env s ev sys =
        ((Except.ok none, s),
          ⟨(env.client_PostMessage ev.Channel (some reloadedMessage)
              (env.userList_Reload (env.projectList_Reload sys.world).2).2).2,
            sys.trace ++ [Event.ProjectListReload, Event.UserListReload,
              Event.PostMessage ev.Channel (some reloadedMessage)]⟩)) := by
  have no {pat : String} (h : ¬ pat.data <:+: ev.Text.data) : MatchString pat ev.Text = false :=
    Bool.eq_false_iff.mpr fun hm => h ((MatchString_iff pat ev.Text).mp hm)
  refine ⟨fun h => ?_, fun h1 h2 => ?_, fun h1 h2 h3 => ?_⟩
  · simp [handleMessageEvent, (MatchString_iff _ _).mpr h, PostMessage]
  · simp [handleMessageEvent, no h1, (MatchString_iff _ _).mpr h2, PostMessage]
  · simp [handleMessageEvent, no h1, no h2, (MatchString_iff _ _).mpr h3, PostMessage]

/-- C9 at a well-formed lock command whose project alias contains `ls`: the
project list is posted and nothing else happens. -/
theorem handleMessageEvent_keywords_witness :
    (handleMessageEvent (sampleSlack none) sampleListener
      ⟨"lock tools production for maintenance", "C1", "U1"⟩ ⟨0, []⟩).2.trace
      = [Event.PostMessage "C1" (some (projectListMessage [sampleProject]))] :=
  congrArg (fun r => r.2.trace)
    ((handleMessageEvent_keywords (sampleSlack none) sampleListener
      ⟨"lock tools production for maintenance", "C1", "U1"⟩ ⟨0, []⟩).2.1
      (fun h => absurd ((MatchString_iff _ _).mpr h) (by decide))
      ((MatchString_iff _ _).mp (by decide)))

end Gocat
